import Mathlib

/-!
Verification of the drawing-engine core of the ArchAi 2-D drafting surface
(`src/index.tsx`).  The JS source is shallowly embedded: entities become a
tagged union, pointer handlers become pure functions on the relevant state,
and JS `number` arithmetic is modelled by exact rationals (the spec's
"within floating tolerance" statements become exact equalities).  Comparisons
of Euclidean distances against constant thresholds are embedded as the
equivalent comparisons of squared distances, avoiding square roots on `ℚ`.
-/

namespace ArchAi

/-- A 2-D point (`type Point = { x: number; y: number }`). -/
structure Point where
  x : ℚ
  y : ℚ
deriving DecidableEq, Repr

/-- The tool enum (`type ToolType = ...`). -/
inductive ToolType where
  | SELECT | WALL | DOOR | WINDOW | TEXT | CIRCLE | RECT | DIMENSION
  | POLYLINE | ARC | INSERT_BLOCK | LEADER | TABLE | CENTERMARK
deriving DecidableEq, Repr

/-- Variant-specific geometry of an entity: one constructor per entity
interface of the source (`Wall`, `Door`, `TextLabel`, `Dimension`,
`CircleEntity`, `RectEntity`, `PolylineEntity`, `ArcEntity`, `ImageEntity`,
`InsertEntity`, `LeaderEntity`, `TableEntity`, `CenterMarkEntity`). -/
inductive EGeo where
  | wall (start end_ : Point) (thickness : ℚ)
  | door (x y width rotation : ℚ)
  | text (x y : ℚ) (content : String) (fontSize : ℚ)
  | dimension (start end_ : Point)
  | circle (center : Point) (radius : ℚ)
  | rect (start : Point) (width height : ℚ)
  | polyline (points : List Point) (closed : Bool)
  | arc (p1 p2 p3 : Point)
  | image (href : String) (x y width height opacity : ℚ)
  | insert (blockName : String) (insertPoint : Point) (scale rotation : ℚ)
  | leader (start end_ : Point) (text : String)
  | table (x y : ℚ) (rows cols : Int) (rowHeight colWidth : ℚ)
  | centermark (center : Point) (size : ℚ)
deriving DecidableEq, Repr

/-- A live entity: common fields `id` and `selected` (absent `selected` is
`false`) plus the variant geometry.  The unused `layer` field is omitted. -/
structure Entity where
  id : String
  selected : Bool
  geo : EGeo
deriving DecidableEq, Repr

/-- `dist` squared (`dist` in the source takes the square root; every use we
model compares `dist` with a nonnegative constant, which is equivalent to
comparing `distSq` with its square). -/
def distSq (p1 p2 : Point) : ℚ :=
  (p2.x - p1.x) ^ 2 + (p2.y - p1.y) ^ 2

-- ---------------------------------------------------------------------------
-- Geometry kernel: getArcPath
-- ---------------------------------------------------------------------------

/-- The determinant `D` computed by `getArcPath`. -/
def arcD (p1 p2 p3 : Point) : ℚ :=
  2 * (p1.x * (p2.y - p3.y) + p2.x * (p3.y - p1.y) + p3.x * (p1.y - p2.y))

/-- Result of `getArcPath`: either the degenerate straight segment
`M x1 y1 L x3 y3` or the arc command `M x1 y1 A r r 0 0 sweep x3 y3`.
The radius is carried squared (the source takes a square root of this
nonnegative quantity). -/
inductive ArcPath where
  | segment (a b : Point)
  | arcTo (a : Point) (radiusSq : ℚ) (sweep : Nat) (b : Point)
deriving DecidableEq, Repr

/-- `getArcPath(p1,p2,p3)` from the source.  The JS null-guard on the
arguments does not arise in the typed embedding. -/
def getArcPath (p1 p2 p3 : Point) : ArcPath :=
  let D := arcD p1 p2 p3
  if |D| < 1 / 1000 then ArcPath.segment p1 p3
  else
    let Ux := ((p1.x ^ 2 + p1.y ^ 2) * (p2.y - p3.y) + (p2.x ^ 2 + p2.y ^ 2) * (p3.y - p1.y)
      + (p3.x ^ 2 + p3.y ^ 2) * (p1.y - p2.y)) / D
    let Uy := ((p1.x ^ 2 + p1.y ^ 2) * (p3.x - p2.x) + (p2.x ^ 2 + p2.y ^ 2) * (p1.x - p3.x)
      + (p3.x ^ 2 + p3.y ^ 2) * (p2.x - p1.x)) / D
    let cp := (p2.x - p1.x) * (p3.y - p1.y) - (p2.y - p1.y) * (p3.x - p1.x)
    ArcPath.arcTo p1 ((p1.x - Ux) ^ 2 + (p1.y - Uy) ^ 2) (if cp > 0 then 0 else 1) p3

-- ---------------------------------------------------------------------------
-- Tool state machine: ARC presses, WALL / RECT releases
-- ---------------------------------------------------------------------------

/-- The `ARC` branch of `handleMouseDown`: appends the pressed world position
to `tempPoints` and commits an arc when the resulting list has length 2
(the source condition is `nextPoints.length === 2`).  Returns the new entity
list and the new `tempPoints` buffer.  `fid` stands for `generateId()`. -/
def arcPress (fid : String) (tempPoints : List Point) (worldPos : Point)
    (es : List Entity) : List Entity × List Point :=
  let nextPoints := tempPoints ++ [worldPos]
  if nextPoints.length = 2 then
    (es ++ [⟨fid, false, EGeo.arc (nextPoints.getD 0 ⟨0, 0⟩) (nextPoints.getD 1 ⟨0, 0⟩) worldPos⟩],
      [])
  else
    (es, nextPoints)

/-- The `WALL` branch of `handleMouseUp`: orthogonal snap on each axis whose
delta is below 10, then commit only when the (snapped) length exceeds 5
(`dist > 5` embedded as `distSq > 25`). -/
def wallMouseUp (fid : String) (drawingStart mousePos : Point)
    (es : List Entity) : List Entity :=
  let ex := if |drawingStart.x - mousePos.x| < 10 then drawingStart.x else mousePos.x
  let ey := if |drawingStart.y - mousePos.y| < 10 then drawingStart.y else mousePos.y
  let endPt : Point := ⟨ex, ey⟩
  if distSq drawingStart endPt > 25 then
    es ++ [⟨fid, false, EGeo.wall drawingStart endPt 5⟩]
  else
    es

/-- The `RECT` branch of `handleMouseUp`: commit only when both absolute
extents exceed 5, normalizing start to the componentwise minimum corner. -/
def rectMouseUp (fid : String) (drawingStart mousePos : Point)
    (es : List Entity) : List Entity :=
  let w := mousePos.x - drawingStart.x
  let h := mousePos.y - drawingStart.y
  if |w| > 5 ∧ |h| > 5 then
    es ++ [⟨fid, false,
      EGeo.rect ⟨min drawingStart.x mousePos.x, min drawingStart.y mousePos.y⟩ |w| |h|⟩]
  else
    es

-- ---------------------------------------------------------------------------
-- C1 / C2 / C8 / C10
-- ---------------------------------------------------------------------------

/-- Claim C1 (code bug evidence): with the ARC tool, the first press only
buffers, but the SECOND press already commits an arc whose `p2` and `p3` are
both that second pressed position (the source tests `nextPoints.length === 2`,
which counts the press being handled), so no third press is ever needed and
every committed arc is degenerate — `getArcPath` renders it as a straight
segment.  This contradicts the claim that the first two presses are buffered
and the third press commits `Arc{p1,p2,p3}` with distinct second and third
points. -/
theorem arc_commit_on_second_press :
    arcPress "a1" [] ⟨0, 0⟩ [] = ([], [⟨0, 0⟩]) ∧
    arcPress "a2" [⟨0, 0⟩] ⟨10, 10⟩ [] =
      ([⟨"a2", false, EGeo.arc ⟨0, 0⟩ ⟨10, 10⟩ ⟨10, 10⟩⟩], []) ∧
    getArcPath ⟨0, 0⟩ ⟨10, 10⟩ ⟨10, 10⟩ = ArcPath.segment ⟨0, 0⟩ ⟨10, 10⟩ := by
  refine ⟨by norm_num [arcPress], by norm_num [arcPress], by norm_num [getArcPath, arcD]⟩

/-- Claim C2 counterexample: committing a wall from (0,0) with the pointer
released at (3,3) does NOT produce a diagonal wall with end (3,3); both axis
deltas are below the 10-unit snap threshold, the end collapses onto the start,
and the zero-length wall fails the `dist > 5` check, so no entity is created
at all. -/
theorem wall_snap_small_diagonal_creates_nothing :
    wallMouseUp "w1" ⟨0, 0⟩ ⟨3, 3⟩ [] = [] := by
  norm_num [wallMouseUp, distSq]

/-- Claim C2 (corrected): releasing at (3,3) from (0,0) triggers the snap on
BOTH axes (each delta 3 < 10), collapsing the end to (0,0), and the resulting
zero-length wall is discarded by the minimum-length check, so no entity is
committed; releasing at (200,3) snaps only the y axis and commits a wall with
end (200,0), i.e. end.y = start.y = 0. -/
theorem wall_snap_behavior : ∀ (fid : String) (es : List Entity),
    wallMouseUp fid ⟨0, 0⟩ ⟨3, 3⟩ es = es ∧
    wallMouseUp fid ⟨0, 0⟩ ⟨200, 3⟩ es =
      es ++ [⟨fid, false, EGeo.wall ⟨0, 0⟩ ⟨200, 0⟩ 5⟩] := by
  intro fid es
  constructor
  · norm_num [wallMouseUp, distSq]
  · norm_num [wallMouseUp, distSq]

/-- Claim C8: three collinear points (vanishing cross product) make the
determinant `D` exactly zero, hence below the 0.001 epsilon, and `getArcPath`
falls back to the straight segment from `p1` to `p3`; the segment output is
built from the input coordinates alone, with the divisions by `D` never
performed. -/
theorem getArcPath_collinear_fallback : ∀ p1 p2 p3 : Point,
    ((p2.x - p1.x) * (p3.y - p1.y) = (p2.y - p1.y) * (p3.x - p1.x)) →
    arcD p1 p2 p3 = 0 ∧ getArcPath p1 p2 p3 = ArcPath.segment p1 p3 := by
  intro p1 p2 p3 hcol
  have hD : arcD p1 p2 p3 = 0 := by
    have h2 : arcD p1 p2 p3 =
        2 * ((p2.x - p1.x) * (p3.y - p1.y) - (p2.y - p1.y) * (p3.x - p1.x)) := by
      unfold arcD; ring
    rw [h2, hcol]; ring
  refine ⟨hD, ?_⟩
  unfold getArcPath
  rw [hD]
  norm_num

/-- Witness for C8 at the concrete collinear points (0,0), (5,0), (10,0). -/
theorem getArcPath_collinear_fallback_witness :
    (((5 : ℚ) - 0) * ((0 : ℚ) - 0) = ((0 : ℚ) - 0) * ((10 : ℚ) - 0)) ∧
    (arcD ⟨0, 0⟩ ⟨5, 0⟩ ⟨10, 0⟩ = 0 ∧
      getArcPath ⟨0, 0⟩ ⟨5, 0⟩ ⟨10, 0⟩ = ArcPath.segment ⟨0, 0⟩ ⟨10, 0⟩) :=
  ⟨by norm_num, getArcPath_collinear_fallback ⟨0, 0⟩ ⟨5, 0⟩ ⟨10, 0⟩ (by norm_num)⟩

/-- Claim C10: a RECT commit requires both drag extents to be strictly greater
than 5, and the committed rect has `start` equal to the componentwise minimum
of the two corners and strictly positive width and height (each `> 5`);
otherwise no entity is created. -/
theorem rect_commit_normalized : ∀ (fid : String) (ds mp : Point) (es : List Entity),
    ((|mp.x - ds.x| > 5 ∧ |mp.y - ds.y| > 5) →
      rectMouseUp fid ds mp es =
        es ++ [⟨fid, false, EGeo.rect ⟨min ds.x mp.x, min ds.y mp.y⟩ |mp.x - ds.x| |mp.y - ds.y|⟩] ∧
      |mp.x - ds.x| > 5 ∧ |mp.y - ds.y| > 5) ∧
    ((|mp.x - ds.x| ≤ 5 ∨ |mp.y - ds.y| ≤ 5) → rectMouseUp fid ds mp es = es) := by
  intro fid ds mp es
  constructor
  · intro h
    refine ⟨?_, h⟩
    unfold rectMouseUp
    rw [if_pos h]
  · intro h
    unfold rectMouseUp
    rw [if_neg]
    push_neg
    intro hx
    rcases h with h | h
    · exact absurd hx (not_lt.mpr h)
    · exact h

/-- Witness for C10 at the concrete drag from (10,8) to (0,0). -/
theorem rect_commit_normalized_witness :
    ((|(0 : ℚ) - 10| > 5 ∧ |(0 : ℚ) - 8| > 5) ∧
      rectMouseUp "r1" ⟨10, 8⟩ ⟨0, 0⟩ [] =
        [] ++ [⟨"r1", false, EGeo.rect ⟨min (10 : ℚ) 0, min (8 : ℚ) 0⟩ |(0 : ℚ) - 10| |(0 : ℚ) - 8|⟩] ∧
      |(0 : ℚ) - 10| > 5 ∧ |(0 : ℚ) - 8| > 5) :=
  ⟨⟨by norm_num, by norm_num⟩,
    (rect_commit_normalized "r1" ⟨10, 8⟩ ⟨0, 0⟩ []).1 ⟨by norm_num, by norm_num⟩⟩

-- ---------------------------------------------------------------------------
-- The AI action-batch applier (`callAI`)
-- ---------------------------------------------------------------------------

/-- The optional geometry fields an interpreter action may carry (the subset
validated or used by the applier). -/
structure ActFields where
  start : Option Point
  end_ : Option Point
  center : Option Point
  width : Option ℚ
  height : Option ℚ
  radius : Option ℚ
deriving DecidableEq, Repr

/-- An interpreter action (`Action = {action, type?, id?, ...entityFields}`). -/
inductive AIAction where
  | clear
  | create (type_ : String) (fields : ActFields)
  | del (id : String)
  | update (id : String) (fields : ActFields)
deriving DecidableEq, Repr

/-- An entity as the applier builds it: an untyped grab-bag of the action's
fields (the source pushes `{...act, id, type}` with no per-variant shape). -/
structure RawEntity where
  id : String
  type_ : String
  fields : ActFields
deriving DecidableEq, Repr

/-- Keep the overriding value when present, else the old one (one field of a
JS object-spread merge). -/
def ov {α : Type} (new_ old : Option α) : Option α :=
  match new_ with
  | some v => some v
  | none => old

/-- JS object-spread merge `{...e, ...act}` restricted to the modelled
fields: a field present on the action overwrites the entity's. -/
def mergeFields (old new_ : ActFields) : ActFields :=
  ⟨ov new_.start old.start, ov new_.end_ old.end_, ov new_.center old.center,
    ov new_.width old.width, ov new_.height old.height, ov new_.radius old.radius⟩

/-- One step of the `responseData.actions.forEach` fold in `callAI`.
JS falsiness: `!newEntity.width` holds when `width` is absent or `0` (JSON
cannot carry `NaN`), and `!newEntity.start` only when the object is absent. -/
def applyAction (fid : String) (es : List RawEntity) : AIAction → List RawEntity
  | AIAction.clear => []
  | AIAction.create t f =>
      if t = "wall" ∧ (f.start = none ∨ f.end_ = none) then es
      else if t = "rect" ∧ (f.start = none ∨ f.width = none ∨ f.width = some 0) then es
      else if t = "circle" ∧ (f.center = none ∨ f.radius = none ∨ f.radius = some 0) then es
      else es ++ [⟨fid, t, f⟩]
  | AIAction.del i => es.filter (fun e => e.id ≠ i)
  | AIAction.update i f =>
      es.map (fun e => if e.id = i then ⟨e.id, e.type_, mergeFields e.fields f⟩ else e)

/-- The applier folds the batch over the entity list in array order; `fresh`
supplies the `generateId()` result for the n-th action. -/
def applyActions (fresh : Nat → String) (acts : List AIAction) (es : List RawEntity) :
    List RawEntity :=
  (acts.foldl (fun (p : List RawEntity × Nat) a => (applyAction (fresh p.2) p.1 a, p.2 + 1))
    (es, 0)).1

/-- Claim C3 counterexample: the batch
`[{action:"create",type:"rect",start:{x:0,y:0},width:10}]` (missing `height`)
is NOT skipped: applied to the empty entity list it inserts a rect entity,
because the applier's rect validation only requires `start` and `width`. -/
theorem rect_create_missing_height_inserted :
    applyActions (fun _ => "g0")
        [AIAction.create "rect" ⟨some ⟨0, 0⟩, none, none, some 10, none, none⟩] [] =
      [⟨"g0", "rect", ⟨some ⟨0, 0⟩, none, none, some 10, none, none⟩⟩] ∧
    ([⟨"g0", "rect", ⟨some ⟨0, 0⟩, none, none, some 10, none, none⟩⟩] : List RawEntity) ≠ [] := by
  have h1 : ("rect" : String) ≠ "wall" := by decide
  have h3 : ("rect" : String) ≠ "circle" := by decide
  have h2 : (some (⟨0, 0⟩ : Point)) ≠ none := by simp
  have h4 : (some (10 : ℚ)) ≠ (none : Option ℚ) := by simp
  constructor
  · norm_num [applyActions, applyAction, h1, h2, h3, h4]
  · simp

/-- Claim C3 (corrected): a rect `create` is skipped exactly when `start` is
missing or `width` is missing or zero; `height` is not validated, so the
claim's batch (start and width present, height missing) is accepted and
appended to any entity list. -/
theorem rect_create_validation : ∀ (fresh : Nat → String) (es : List RawEntity),
    applyActions fresh
        [AIAction.create "rect" ⟨some ⟨0, 0⟩, none, none, some 10, none, none⟩] es =
      es ++ [⟨fresh 0, "rect", ⟨some ⟨0, 0⟩, none, none, some 10, none, none⟩⟩] ∧
    ∀ f : ActFields, (f.start = none ∨ f.width = none ∨ f.width = some 0) →
      applyActions fresh [AIAction.create "rect" f] es = es := by
  intro fresh es
  have h1 : ("rect" : String) ≠ "wall" := by decide
  have h3 : ("rect" : String) ≠ "circle" := by decide
  have h2 : (some (⟨0, 0⟩ : Point)) ≠ none := by simp
  have h4 : (some (10 : ℚ)) ≠ (none : Option ℚ) := by simp
  constructor
  · norm_num [applyActions, applyAction, h1, h2, h3, h4]
  · intro f h
    simp only [applyActions, List.foldl, applyAction]
    rw [if_neg, if_pos ⟨trivial, h⟩]
    rintro ⟨hw, -⟩
    exact absurd hw (by decide)

/-- Witness for C3's general skip clause: a rect `create` with no `start`
leaves the empty entity list unchanged. -/
theorem rect_create_validation_witness :
    ((⟨none, none, none, some 10, none, none⟩ : ActFields).start = none ∨
      (⟨none, none, none, some 10, none, none⟩ : ActFields).width = none ∨
      (⟨none, none, none, some 10, none, none⟩ : ActFields).width = some 0) ∧
    applyActions (fun _ => "g1")
      [AIAction.create "rect" ⟨none, none, none, some 10, none, none⟩] [] = [] :=
  ⟨Or.inl rfl,
    (rect_create_validation (fun _ => "g1") []).2
      ⟨none, none, none, some 10, none, none⟩ (Or.inl rfl)⟩

-- ---------------------------------------------------------------------------
-- The TABLE tool (`handleMouseDown`, TABLE branch)
-- ---------------------------------------------------------------------------

/-- JS `parseInt` in base 10: skip leading whitespace, optional sign, then a
maximal run of decimal digits; `none` models NaN (no digits found). -/
def jsParseInt (s : List Char) : Option Int :=
  let afterWs := s.dropWhile (·.isWhitespace)
  let signed : Bool × List Char :=
    match afterWs with
    | '-' :: t => (true, t)
    | '+' :: t => (false, t)
    | t => (false, t)
  let digits := signed.2.takeWhile (·.isDigit)
  if digits.isEmpty then none
  else
    let n : Nat := digits.foldl (fun acc c => acc * 10 + (c.toNat - 48)) 0
    some (if signed.1 then -(n : Int) else (n : Int))

/-- JS `String.prototype.split(',')`. -/
def splitComma (cs : List Char) : List (List Char) :=
  cs.foldr (fun ch acc =>
    if ch = ',' then [] :: acc
    else
      match acc with
      | [] => [[ch]]
      | g :: gs => (ch :: g) :: gs) [[]]

/-- The TABLE branch of `handleMouseDown`: `spec` is the `prompt` result
(`none` = cancelled).  The source commits when `r && c` — i.e. when the first
two comma-separated fields both `parseInt` to a nonzero integer (NaN, zero
and a missing field are falsy) — with fixed `rowHeight 20`, `colWidth 60`,
and switches the tool to SELECT; otherwise nothing changes. -/
def tablePress (worldPos : Point) (fid : String) (spec : Option String)
    (es : List Entity) (tool : ToolType) : List Entity × ToolType :=
  match spec with
  | none => (es, tool)
  | some s =>
    if s = "" then (es, tool)
    else
      let parts := splitComma s.toList
      match (parts.get? 0).bind jsParseInt, (parts.get? 1).bind jsParseInt with
      | some r, some c =>
        if r ≠ 0 ∧ c ≠ 0 then
          (es ++ [⟨fid, false, EGeo.table worldPos.x worldPos.y r c 20 60⟩], ToolType.SELECT)
        else (es, tool)
      | _, _ => (es, tool)

/-- Claim C9 counterexample: the input "-3,-2" — negative values, which the
claim says must abort — parses to the nonzero integers -3 and -2, so the
press COMMITS a table entity with negative row/column counts. -/
theorem table_negative_input_commits :
    tablePress ⟨0, 0⟩ "t1" (some "-3,-2") [] ToolType.TABLE =
      ([⟨"t1", false, EGeo.table 0 0 (-3) (-2) 20 60⟩], ToolType.SELECT) ∧
    ([⟨"t1", false, EGeo.table 0 0 (-3) (-2) 20 60⟩] : List Entity) ≠ [] :=
  ⟨rfl, by simp⟩

/-- Claim C9 (corrected): a TABLE press commits (at the pointer position,
with rowHeight 20 and colWidth 60, switching the tool to SELECT) exactly when
both comma-separated fields `parseInt` to nonzero integers — negative values
included; non-numeric or zero fields, the empty string, and a cancelled
prompt all abort with the entity list and tool unchanged. -/
theorem table_commit_characterization : ∀ (wp : Point) (fid : String) (es : List Entity),
    tablePress wp fid (some "4,3") es ToolType.TABLE =
      (es ++ [⟨fid, false, EGeo.table wp.x wp.y 4 3 20 60⟩], ToolType.SELECT) ∧
    tablePress wp fid (some "-3,-2") es ToolType.TABLE =
      (es ++ [⟨fid, false, EGeo.table wp.x wp.y (-3) (-2) 20 60⟩], ToolType.SELECT) ∧
    tablePress wp fid (some "0,5") es ToolType.TABLE = (es, ToolType.TABLE) ∧
    tablePress wp fid (some "abc,3") es ToolType.TABLE = (es, ToolType.TABLE) ∧
    tablePress wp fid (some "") es ToolType.TABLE = (es, ToolType.TABLE) ∧
    tablePress wp fid none es ToolType.TABLE = (es, ToolType.TABLE) :=
  fun _ _ _ => ⟨rfl, rfl, rfl, rfl, rfl, rfl⟩

-- ---------------------------------------------------------------------------
-- Bounding-box folds and per-variant representative points
-- ---------------------------------------------------------------------------

/-- Running minimum, as built by the source's repeated `if(x<minX)minX=x`. -/
def foldMin (a : ℚ) (l : List ℚ) : ℚ := l.foldl min a

/-- Running maximum. -/
def foldMax (a : ℚ) (l : List ℚ) : ℚ := l.foldl max a

/-- The representative points collected by the bounds loop shared by
`zoomExtents` and `rotateSelected`: `start` and `end ?? start` when the
entity has a `start`, then `center`, then `(x,y)`, then `points`.  A rect has
`start` but no `end`, so its start counts twice; arcs and inserts contribute
nothing. -/
def repPts : EGeo → List Point
  | EGeo.wall s e _ => [s, e]
  | EGeo.dimension s e => [s, e]
  | EGeo.leader s e _ => [s, e]
  | EGeo.rect s _ _ => [s, s]
  | EGeo.circle c _ => [c]
  | EGeo.centermark c _ => [c]
  | EGeo.text x y _ _ => [⟨x, y⟩]
  | EGeo.image _ x y _ _ _ => [⟨x, y⟩]
  | EGeo.table x y _ _ _ _ => [⟨x, y⟩]
  | EGeo.door x y _ _ => [⟨x, y⟩]
  | EGeo.polyline pts _ => pts
  | EGeo.arc _ _ _ => []
  | EGeo.insert _ _ _ _ => []

-- ---------------------------------------------------------------------------
-- Block authoring (`createBlock`)
-- ---------------------------------------------------------------------------

/-- A stored block definition; its entities carry no `id`/`selected` (those
are deleted during normalization), so they are bare geometries. -/
structure BlockDefinition where
  name : String
  entities : List EGeo
  basePoint : Point
deriving DecidableEq, Repr

/-- Componentwise point difference (the `shift` helper of `createBlock`). -/
def psub (p b : Point) : Point := ⟨p.x - b.x, p.y - b.y⟩

/-- The representative points of `createBlock`'s simplified bounds check:
`start`, `center`, `points`, `(x,y)` — unlike `repPts` it does NOT look at
`end`, and an arc or insert again contributes nothing. -/
def blockReps : EGeo → List Point
  | EGeo.wall s _ _ => [s]
  | EGeo.dimension s _ => [s]
  | EGeo.leader s _ _ => [s]
  | EGeo.rect s _ _ => [s]
  | EGeo.circle c _ => [c]
  | EGeo.centermark c _ => [c]
  | EGeo.text x y _ _ => [⟨x, y⟩]
  | EGeo.image _ x y _ _ _ => [⟨x, y⟩]
  | EGeo.table x y _ _ _ _ => [⟨x, y⟩]
  | EGeo.door x y _ _ => [⟨x, y⟩]
  | EGeo.polyline pts _ => pts
  | EGeo.arc _ _ _ => []
  | EGeo.insert _ _ _ _ => []

/-- Normalization shift of `createBlock`: shifts `start`, `end`, `center`,
`points`, `(x,y)` and `p1`/`p2`/`p3` by `-basePoint`; `insertPoint` is not in
the source's field list, so a nested insert keeps absolute coordinates. -/
def shiftG (b : Point) : EGeo → EGeo
  | EGeo.wall s e t => EGeo.wall (psub s b) (psub e b) t
  | EGeo.dimension s e => EGeo.dimension (psub s b) (psub e b)
  | EGeo.leader s e txt => EGeo.leader (psub s b) (psub e b) txt
  | EGeo.rect s w h => EGeo.rect (psub s b) w h
  | EGeo.circle c r => EGeo.circle (psub c b) r
  | EGeo.centermark c sz => EGeo.centermark (psub c b) sz
  | EGeo.text x y ct fs => EGeo.text (x - b.x) (y - b.y) ct fs
  | EGeo.image href x y w h o => EGeo.image href (x - b.x) (y - b.y) w h o
  | EGeo.table x y r c rh cw => EGeo.table (x - b.x) (y - b.y) r c rh cw
  | EGeo.door x y w r => EGeo.door (x - b.x) (y - b.y) w r
  | EGeo.polyline pts cl => EGeo.polyline (pts.map (psub · b)) cl
  | EGeo.arc p1 p2 p3 => EGeo.arc (psub p1 b) (psub p2 b) (psub p3 b)
  | EGeo.insert nm ip sc rot => EGeo.insert nm ip sc rot

/-- `createBlock`: aborts (state unchanged) when the selection is empty, the
name prompt is cancelled or empty, or the name already exists; otherwise
computes the base point as the center of the selection's representative-point
bounds (origin when no representative point exists), stores the normalized
definition, and replaces the selected entities with one selected insert at the
base point.  `name?` is the `prompt` result and `fid` the `generateId()`. -/
def createBlock (name? : Option String) (fid : String) (defs : List BlockDefinition)
    (es : List Entity) : List BlockDefinition × List Entity :=
  let selected := es.filter (·.selected)
  if selected.isEmpty then (defs, es)
  else
    match name? with
    | none => (defs, es)
    | some name =>
      if name = "" then (defs, es)
      else if defs.any (fun d => d.name == name) then (defs, es)
      else
        let basePoint : Point :=
          match selected.flatMap (fun e => blockReps e.geo) with
          | [] => ⟨0, 0⟩
          | p :: rest =>
            ⟨(foldMin p.x (rest.map Point.x) + foldMax p.x (rest.map Point.x)) / 2,
             (foldMin p.y (rest.map Point.y) + foldMax p.y (rest.map Point.y)) / 2⟩
        (defs ++ [⟨name, selected.map (fun e => shiftG basePoint e.geo), basePoint⟩],
         es.filter (fun e => !e.selected) ++ [⟨fid, true, EGeo.insert name basePoint 1 0⟩])

/-- Claim C4: `createBlock` on a selection of exactly one
Circle{center:(50,50),radius:20} with the fresh name "B1" stores a definition
with basePoint (50,50) and the single normalized geometry
Circle{center:(0,0),radius:20}, and replaces the selected entities with
exactly one selected Insert{blockName:"B1",insertPoint:(50,50)}; it aborts
without mutating anything when the selection is empty or the name exists. -/
theorem createBlock_circle_scenario :
    ∀ (es : List Entity) (defs : List BlockDefinition) (fid cid : String),
    es.filter (·.selected) = [⟨cid, true, EGeo.circle ⟨50, 50⟩ 20⟩] →
    defs.any (fun d => d.name == "B1") = false →
    createBlock (some "B1") fid defs es =
      (defs ++ [⟨"B1", [EGeo.circle ⟨0, 0⟩ 20], ⟨50, 50⟩⟩],
       es.filter (fun e => !e.selected) ++ [⟨fid, true, EGeo.insert "B1" ⟨50, 50⟩ 1 0⟩]) ∧
    (∀ (nm : Option String) (fid2 : String) (defs2 : List BlockDefinition) (es2 : List Entity),
      es2.filter (·.selected) = [] → createBlock nm fid2 defs2 es2 = (defs2, es2)) ∧
    (∀ (nm fid3 : String) (defs3 : List BlockDefinition) (es3 : List Entity),
      defs3.any (fun d => d.name == nm) = true →
      createBlock (some nm) fid3 defs3 es3 = (defs3, es3)) := by
  intro es defs fid cid h1 h2
  refine ⟨?_, ?_, ?_⟩
  · simp only [createBlock, h1, h2]
    norm_num [foldMin, foldMax, shiftG, blockReps, psub]
    decide
  · intro nm fid2 defs2 es2 h
    simp [createBlock, h]
  · intro nm fid3 defs3 es3 h
    by_cases hsel : (es3.filter (·.selected)).isEmpty
    · simp [createBlock, hsel]
    · by_cases hnm : nm = ""
      · simp [createBlock, hsel, hnm]
      · simp [createBlock, hsel, hnm, h]

/-- Witness for C4 at a concrete live list holding one selected circle and
one unselected wall. -/
theorem createBlock_circle_scenario_witness :
    ([⟨"w9", false, EGeo.wall ⟨0, 0⟩ ⟨5, 0⟩ 5⟩,
      ⟨"c1", true, EGeo.circle ⟨50, 50⟩ 20⟩] : List Entity).filter (·.selected) =
        [⟨"c1", true, EGeo.circle ⟨50, 50⟩ 20⟩] ∧
    ([] : List BlockDefinition).any (fun d => d.name == "B1") = false ∧
    createBlock (some "B1") "i1" []
        [⟨"w9", false, EGeo.wall ⟨0, 0⟩ ⟨5, 0⟩ 5⟩, ⟨"c1", true, EGeo.circle ⟨50, 50⟩ 20⟩] =
      ([] ++ [⟨"B1", [EGeo.circle ⟨0, 0⟩ 20], ⟨50, 50⟩⟩],
       ([⟨"w9", false, EGeo.wall ⟨0, 0⟩ ⟨5, 0⟩ 5⟩,
         ⟨"c1", true, EGeo.circle ⟨50, 50⟩ 20⟩] : List Entity).filter (fun e => !e.selected) ++
         [⟨"i1", true, EGeo.insert "B1" ⟨50, 50⟩ 1 0⟩]) :=
  ⟨rfl, rfl,
    (createBlock_circle_scenario
      [⟨"w9", false, EGeo.wall ⟨0, 0⟩ ⟨5, 0⟩ 5⟩, ⟨"c1", true, EGeo.circle ⟨50, 50⟩ 20⟩]
      [] "i1" "c1" rfl rfl).1⟩

-- ---------------------------------------------------------------------------
-- View state and zoom-to-extents (`zoomExtents`)
-- ---------------------------------------------------------------------------

/-- `ViewState { x, y, zoom }`. -/
structure ViewState where
  x : ℚ
  y : ℚ
  zoom : ℚ
deriving DecidableEq, Repr

/-- Minimum where the first operand may be `+∞` (`none`): `Math.min` with a
JS `Infinity` produced by dividing a positive viewport extent by a zero
bounding-box extent. -/
def optMin : Option ℚ → ℚ → ℚ
  | none, b => b
  | some a, b => min a b

/-- `zoomExtents`: empty list resets the view to the default; a non-empty
list with no representative points returns early with the view unchanged;
otherwise the zoom is `min(scaleX, scaleY, 5)` (padding 50 on each side) and
the box is centered.  A zero box extent makes the corresponding scale `+∞`
(JS division by zero with a positive numerator), modelled by `none`; this is
faithful for viewports larger than the 100 units of padding. -/
def zoomExtents (viewW viewH : ℚ) (view : ViewState) (es : List Entity) : ViewState :=
  if es.isEmpty then ⟨0, 0, 1⟩
  else
    match es.flatMap (fun e => repPts e.geo) with
    | [] => view
    | p :: rest =>
      let minX := foldMin p.x (rest.map Point.x)
      let maxX := foldMax p.x (rest.map Point.x)
      let minY := foldMin p.y (rest.map Point.y)
      let maxY := foldMax p.y (rest.map Point.y)
      let scaleX : Option ℚ :=
        if maxX - minX = 0 then none else some ((viewW - 2 * 50) / (maxX - minX))
      let scaleY : Option ℚ :=
        if maxY - minY = 0 then none else some ((viewH - 2 * 50) / (maxY - minY))
      let zoom := optMin scaleX (optMin scaleY 5)
      ⟨viewW / 2 - (minX + maxX) / 2 * zoom, viewH / 2 - (minY + maxY) / 2 * zoom, zoom⟩

/-- `optMin` never exceeds its second operand. -/
theorem optMin_le_right (a : Option ℚ) (b : ℚ) : optMin a b ≤ b := by
  cases a with
  | none => exact le_refl b
  | some v => exact min_le_right v b

/-- Claim C5 counterexample: a non-empty entity list whose entities carry no
representative point (a single arc) does NOT reset the view to the default —
`zoomExtents` returns early and the view (7,8,2) is left unchanged. -/
theorem zoomExtents_degenerate_not_reset :
    zoomExtents 800 600 ⟨7, 8, 2⟩ [⟨"a1", false, EGeo.arc ⟨0, 0⟩ ⟨1, 0⟩ ⟨2, 1⟩⟩] = ⟨7, 8, 2⟩ ∧
    (⟨7, 8, 2⟩ : ViewState) ≠ (⟨0, 0, 1⟩ : ViewState) := by
  refine ⟨rfl, ?_⟩
  intro h
  have : (7 : ℚ) = 0 := congrArg ViewState.x h
  norm_num at this

/-- Claim C5 (corrected): an empty entity list resets the view to the default
(0,0,zoom 1); a non-empty list with an empty/degenerate bounding box (no
representative points) leaves the view unchanged instead of resetting it; and
in the remaining case the zoom is `min(scaleX, scaleY, 5)`, hence never
exceeds the cap 5.  The viewport hypotheses keep the division-by-zero model
faithful to JS. -/
theorem zoomExtents_behavior : ∀ (viewW viewH : ℚ) (view : ViewState) (es : List Entity),
    100 < viewW → 100 < viewH →
    (es = [] → zoomExtents viewW viewH view es = ⟨0, 0, 1⟩) ∧
    (es ≠ [] → es.flatMap (fun e => repPts e.geo) = [] →
      zoomExtents viewW viewH view es = view) ∧
    (∀ p rest, es.flatMap (fun e => repPts e.geo) = p :: rest →
      (zoomExtents viewW viewH view es).zoom ≤ 5) := by
  intro viewW viewH view es _ _
  refine ⟨?_, ?_, ?_⟩
  · intro h
    subst h
    rfl
  · intro hne hrep
    have hnemp : es.isEmpty = false := by
      cases es with
      | nil => exact absurd rfl hne
      | cons a t => rfl
    simp only [zoomExtents, hnemp, Bool.false_eq_true, if_false, hrep]
  · intro p rest hrep
    have hne : es ≠ [] := by
      intro h
      subst h
      simp at hrep
    have hnemp : es.isEmpty = false := by
      cases es with
      | nil => exact absurd rfl hne
      | cons a t => rfl
    simp only [zoomExtents, hnemp, Bool.false_eq_true, if_false, hrep]
    exact le_trans (optMin_le_right _ _) (optMin_le_right _ _)

/-- Witness for C5 at viewport 800x600 and a one-wall list (for the capped
branch) — the hypotheses 100 < 800 and 100 < 600 hold. -/
theorem zoomExtents_behavior_witness :
    (100 : ℚ) < 800 ∧ (100 : ℚ) < 600 ∧
    ((([⟨"w1", false, EGeo.wall ⟨0, 0⟩ ⟨10, 0⟩ 5⟩] : List Entity) = [] →
        zoomExtents 800 600 ⟨7, 8, 2⟩ [⟨"w1", false, EGeo.wall ⟨0, 0⟩ ⟨10, 0⟩ 5⟩] = ⟨0, 0, 1⟩) ∧
      (([⟨"w1", false, EGeo.wall ⟨0, 0⟩ ⟨10, 0⟩ 5⟩] : List Entity) ≠ [] →
        ([⟨"w1", false, EGeo.wall ⟨0, 0⟩ ⟨10, 0⟩ 5⟩] : List Entity).flatMap
            (fun e => repPts e.geo) = [] →
        zoomExtents 800 600 ⟨7, 8, 2⟩ [⟨"w1", false, EGeo.wall ⟨0, 0⟩ ⟨10, 0⟩ 5⟩] = ⟨7, 8, 2⟩) ∧
      (∀ p rest,
        ([⟨"w1", false, EGeo.wall ⟨0, 0⟩ ⟨10, 0⟩ 5⟩] : List Entity).flatMap
            (fun e => repPts e.geo) = p :: rest →
        (zoomExtents 800 600 ⟨7, 8, 2⟩ [⟨"w1", false, EGeo.wall ⟨0, 0⟩ ⟨10, 0⟩ 5⟩]).zoom ≤ 5)) :=
  ⟨by norm_num, by norm_num,
    zoomExtents_behavior 800 600 ⟨7, 8, 2⟩ [⟨"w1", false, EGeo.wall ⟨0, 0⟩ ⟨10, 0⟩ 5⟩]
      (by norm_num) (by norm_num)⟩

-- ---------------------------------------------------------------------------
-- Fold lemmas for running min/max under affine images
-- ---------------------------------------------------------------------------

theorem foldMin_cons (a b : ℚ) (l : List ℚ) : foldMin a (b :: l) = foldMin (min a b) l := rfl

theorem foldMax_cons (a b : ℚ) (l : List ℚ) : foldMax a (b :: l) = foldMax (max a b) l := rfl

theorem foldMin_map_sub (k : ℚ) : ∀ (l : List ℚ) (a : ℚ),
    foldMin (k - a) (l.map (fun v => k - v)) = k - foldMax a l := by
  intro l
  induction l with
  | nil => intro a; rfl
  | cons b t ih =>
    intro a
    rw [List.map_cons, foldMin_cons, min_sub_sub_left, ih, foldMax_cons]

theorem foldMax_map_sub (k : ℚ) : ∀ (l : List ℚ) (a : ℚ),
    foldMax (k - a) (l.map (fun v => k - v)) = k - foldMin a l := by
  intro l
  induction l with
  | nil => intro a; rfl
  | cons b t ih =>
    intro a
    rw [List.map_cons, foldMax_cons, max_sub_sub_left, ih, foldMin_cons]

theorem foldMin_map_add (k : ℚ) : ∀ (l : List ℚ) (a : ℚ),
    foldMin (k + a) (l.map (fun v => k + v)) = k + foldMin a l := by
  intro l
  induction l with
  | nil => intro a; rfl
  | cons b t ih =>
    intro a
    rw [List.map_cons, foldMin_cons, min_add_add_left, ih, foldMin_cons]

theorem foldMax_map_add (k : ℚ) : ∀ (l : List ℚ) (a : ℚ),
    foldMax (k + a) (l.map (fun v => k + v)) = k + foldMax a l := by
  intro l
  induction l with
  | nil => intro a; rfl
  | cons b t ih =>
    intro a
    rw [List.map_cons, foldMax_cons, max_add_add_left, ih, foldMax_cons]

/-- Generic helper: a non-empty list has `isEmpty = false`. -/
theorem isEmpty_false_of_ne_nil {α : Type} {l : List α} (h : l ≠ []) : l.isEmpty = false := by
  cases l with
  | nil => exact absurd rfl h
  | cons a t => rfl

-- ---------------------------------------------------------------------------
-- Mirror (`mirrorSelected`)
-- ---------------------------------------------------------------------------

/-- Reflection about the vertical axis `x = axisX` (`x' = axis - (x - axis)`,
y unchanged). -/
def mirrorPoint (axisX : ℚ) (p : Point) : Point := ⟨axisX - (p.x - axisX), p.y⟩

/-- The per-variant mirror of `mirrorSelected`'s clone loop.  A rect's new
`start.x` is recomputed from the mirrored point minus the width; doors, arcs
and inserts match no branch and are cloned unchanged. -/
def mirrorG (axisX : ℚ) : EGeo → EGeo
  | EGeo.wall s e t => EGeo.wall (mirrorPoint axisX s) (mirrorPoint axisX e) t
  | EGeo.dimension s e => EGeo.dimension (mirrorPoint axisX s) (mirrorPoint axisX e)
  | EGeo.leader s e txt => EGeo.leader (mirrorPoint axisX s) (mirrorPoint axisX e) txt
  | EGeo.rect s w h => EGeo.rect ⟨(mirrorPoint axisX s).x - w, s.y⟩ w h
  | EGeo.circle c r => EGeo.circle (mirrorPoint axisX c) r
  | EGeo.centermark c sz => EGeo.centermark (mirrorPoint axisX c) sz
  | EGeo.text x y ct fs => EGeo.text (axisX - (x - axisX)) y ct fs
  | EGeo.image href x y w h o => EGeo.image href (axisX - (x - axisX)) y w h o
  | EGeo.table x y r c rh cw => EGeo.table (axisX - (x - axisX)) y r c rh cw
  | EGeo.polyline pts cl => EGeo.polyline (pts.map (mirrorPoint axisX)) cl
  | EGeo.door x y w r => EGeo.door x y w r
  | EGeo.arc p1 p2 p3 => EGeo.arc p1 p2 p3
  | EGeo.insert nm ip sc rot => EGeo.insert nm ip sc rot

/-- The x-coordinates collected by `mirrorSelected`'s extent loop: `start.x`,
`end.x`, `center.x`, `x`, `points[].x` — note a door contributes its `x` even
though the clone loop never mirrors a door. -/
def mirrorXs : EGeo → List ℚ
  | EGeo.wall s e _ => [s.x, e.x]
  | EGeo.dimension s e => [s.x, e.x]
  | EGeo.leader s e _ => [s.x, e.x]
  | EGeo.rect s _ _ => [s.x]
  | EGeo.circle c _ => [c.x]
  | EGeo.centermark c _ => [c.x]
  | EGeo.text x _ _ _ => [x]
  | EGeo.image _ x _ _ _ _ => [x]
  | EGeo.table x _ _ _ _ _ => [x]
  | EGeo.door x _ _ _ => [x]
  | EGeo.polyline pts _ => pts.map Point.x
  | EGeo.arc _ _ _ => []
  | EGeo.insert _ _ _ _ => []

/-- `{...e, selected:false}` applied to a selected entity, identity otherwise. -/
def deselect (e : Entity) : Entity :=
  if e.selected then { e with selected := false } else e

/-- The mirrored clones of the selection, each with a fresh id (`f i`) and
`selected := true`. -/
def mirrorClones (f : Nat → String) (axisX : ℚ) : Nat → List Entity → List Entity
  | _, [] => []
  | i, e :: rest => ⟨f i, true, mirrorG axisX e.geo⟩ :: mirrorClones f axisX (i + 1) rest

/-- `mirrorSelected`: no-op on an empty selection or an empty x-extent;
otherwise deselects the originals and appends mirrored selected clones, the
axis being the midpoint of the selection's x-extent. -/
def mirrorSelected (f : Nat → String) (es : List Entity) : List Entity :=
  let selected := es.filter (·.selected)
  if selected.isEmpty then es
  else
    match selected.flatMap (fun e => mirrorXs e.geo) with
    | [] => es
    | x :: rest =>
      es.map deselect ++ mirrorClones f ((foldMin x rest + foldMax x rest) / 2) 0 selected

/-- All x-coordinates of a geometry's positional fields. -/
def geoXs : EGeo → List ℚ
  | EGeo.wall s e _ => [s.x, e.x]
  | EGeo.dimension s e => [s.x, e.x]
  | EGeo.leader s e _ => [s.x, e.x]
  | EGeo.rect s _ _ => [s.x]
  | EGeo.circle c _ => [c.x]
  | EGeo.centermark c _ => [c.x]
  | EGeo.text x _ _ _ => [x]
  | EGeo.image _ x _ _ _ _ => [x]
  | EGeo.table x _ _ _ _ _ => [x]
  | EGeo.door x _ _ _ => [x]
  | EGeo.polyline pts _ => pts.map Point.x
  | EGeo.arc p1 p2 p3 => [p1.x, p2.x, p3.x]
  | EGeo.insert _ ip _ _ => [ip.x]

/-- All y-coordinates of a geometry's positional fields. -/
def geoYs : EGeo → List ℚ
  | EGeo.wall s e _ => [s.y, e.y]
  | EGeo.dimension s e => [s.y, e.y]
  | EGeo.leader s e _ => [s.y, e.y]
  | EGeo.rect s _ _ => [s.y]
  | EGeo.circle c _ => [c.y]
  | EGeo.centermark c _ => [c.y]
  | EGeo.text _ y _ _ => [y]
  | EGeo.image _ _ y _ _ _ => [y]
  | EGeo.table _ y _ _ _ _ => [y]
  | EGeo.door _ y _ _ => [y]
  | EGeo.polyline pts _ => pts.map Point.y
  | EGeo.arc p1 p2 p3 => [p1.y, p2.y, p3.y]
  | EGeo.insert _ ip _ _ => [ip.y]

/-- Rect discriminator. -/
def isRect : EGeo → Bool
  | EGeo.rect _ _ _ => true
  | _ => false

/-- Door discriminator. -/
def isDoor : EGeo → Bool
  | EGeo.door _ _ _ _ => true
  | _ => false

theorem deselect_selected (e : Entity) : (deselect e).selected = false := by
  unfold deselect
  by_cases h : e.selected
  · simp [h]
  · simp [h, Bool.eq_false_iff.mpr h]

theorem filter_map_deselect (es : List Entity) :
    (es.map deselect).filter (·.selected) = [] := by
  rw [List.filter_eq_nil_iff]
  intro a ha
  rcases List.mem_map.mp ha with ⟨e, -, rfl⟩
  simp [deselect_selected]

theorem mirrorClones_selected (f : Nat → String) (A : ℚ) :
    ∀ (S : List Entity) (i : Nat) (e : Entity), e ∈ mirrorClones f A i S → e.selected = true := by
  intro S
  induction S with
  | nil => intro i e h; cases h
  | cons a t ih =>
    intro i e h
    rcases List.mem_cons.mp h with rfl | h
    · rfl
    · exact ih (i + 1) e h

theorem filter_mirrorClones (f : Nat → String) (A : ℚ) (S : List Entity) (i : Nat) :
    (mirrorClones f A i S).filter (·.selected) = mirrorClones f A i S := by
  rw [List.filter_eq_self]
  intro a ha
  exact mirrorClones_selected f A S i a ha

theorem mirrorClones_geo (f : Nat → String) (A : ℚ) :
    ∀ (S : List Entity) (i : Nat),
    (mirrorClones f A i S).map Entity.geo = S.map (fun e => mirrorG A e.geo) := by
  intro S
  induction S with
  | nil => intro i; rfl
  | cons a t ih =>
    intro i
    simp only [mirrorClones, List.map_cons, ih (i + 1)]

theorem mirrorPoint_invol (A : ℚ) (p : Point) : mirrorPoint A (mirrorPoint A p) = p := by
  cases p with
  | mk x y =>
    simp only [mirrorPoint, Point.mk.injEq]
    refine ⟨by ring, trivial⟩

/-- Mirroring twice about the SAME axis is the identity on every variant,
rects included (the rect failure of the involution claim comes from the axis
moving between the two applications, not from a single mirror). -/
theorem mirrorG_invol (A : ℚ) (g : EGeo) : mirrorG A (mirrorG A g) = g := by
  cases g <;> simp [mirrorG, mirrorPoint_invol, mirrorPoint, List.map_map,
    Function.comp_def] <;> ring

/-- A mirror never changes y-coordinates. -/
theorem geoYs_mirrorG (A : ℚ) (g : EGeo) : geoYs (mirrorG A g) = geoYs g := by
  cases g <;> simp [mirrorG, mirrorPoint, geoYs, List.map_map, Function.comp_def]

/-- For non-rect, non-door variants the extent x-coordinates of a mirrored
geometry are exactly the mirrored extent x-coordinates. -/
theorem mirrorXs_mirrorG (A : ℚ) (g : EGeo) (h1 : isRect g = false) (h2 : isDoor g = false) :
    mirrorXs (mirrorG A g) = (mirrorXs g).map (fun v => A - (v - A)) := by
  cases g <;> simp_all [mirrorG, mirrorPoint, mirrorXs, isRect, isDoor,
    List.map_map, Function.comp_def]

theorem mirrorClones_flatMap (f : Nat → String) (A : ℚ) :
    ∀ (S : List Entity) (i : Nat),
    (∀ e ∈ S, isRect e.geo = false ∧ isDoor e.geo = false) →
    (mirrorClones f A i S).flatMap (fun e => mirrorXs e.geo) =
      (S.flatMap (fun e => mirrorXs e.geo)).map (fun v => A - (v - A)) := by
  intro S
  induction S with
  | nil => intro i h; rfl
  | cons a t ih =>
    intro i h
    simp only [mirrorClones, List.flatMap_cons, List.map_append]
    rw [mirrorXs_mirrorG A a.geo (h a (List.mem_cons_self a t)).1 (h a (List.mem_cons_self a t)).2,
      ih (i + 1) (fun x hx => h x (List.mem_cons_of_mem a hx))]

/-- The mirror axis of a mirrored extent list equals the original axis. -/
theorem mirrorAxis_map (x : ℚ) (rest : List ℚ) (A : ℚ)
    (hA : A = (foldMin x rest + foldMax x rest) / 2) :
    (foldMin (A - (x - A)) (rest.map (fun v => A - (v - A))) +
      foldMax (A - (x - A)) (rest.map (fun v => A - (v - A)))) / 2 = A := by
  have hfun : (fun v : ℚ => A - (v - A)) = (fun v : ℚ => (A + A) - v) := by
    funext v
    ring
  have hx : A - (x - A) = (A + A) - x := by ring
  rw [hfun, hx, foldMin_map_sub, foldMax_map_sub]
  rw [hA]
  ring

theorem isRect_mirrorG (A : ℚ) (g : EGeo) : isRect (mirrorG A g) = isRect g := by
  cases g <;> rfl

theorem isDoor_mirrorG (A : ℚ) (g : EGeo) : isDoor (mirrorG A g) = isDoor g := by
  cases g <;> rfl

theorem mirrorClones_mem (f : Nat → String) (A : ℚ) :
    ∀ (S : List Entity) (i : Nat) (e : Entity), e ∈ mirrorClones f A i S →
      ∃ a ∈ S, e.geo = mirrorG A a.geo := by
  intro S
  induction S with
  | nil => intro i e h; cases h
  | cons a t ih =>
    intro i e h
    rcases List.mem_cons.mp h with rfl | h
    · exact ⟨a, List.mem_cons_self a t, rfl⟩
    · rcases ih (i + 1) e h with ⟨b, hb, hgeo⟩
      exact ⟨b, List.mem_cons_of_mem a hb, hgeo⟩

theorem map_geo_comp {β : Type} (h : EGeo → β) (l : List Entity) :
    l.map (fun e => h e.geo) = (l.map Entity.geo).map h := by
  rw [List.map_map]
  rfl

/-- `mirrorSelected` is a no-op when the selection's x-extent is empty. -/
theorem mirrorSelected_nil (f : Nat → String) (es : List Entity)
    (hxs : (es.filter (·.selected)).flatMap (fun e => mirrorXs e.geo) = []) :
    mirrorSelected f es = es := by
  by_cases hemp : (es.filter (·.selected)).isEmpty
  · simp [mirrorSelected, hemp]
  · simp [mirrorSelected, hemp, hxs]

/-- Unfolding equation for `mirrorSelected` in the productive case. -/
theorem mirrorSelected_eq (f : Nat → String) (es : List Entity) (x : ℚ) (rest : List ℚ)
    (hemp : (es.filter (·.selected)).isEmpty = false)
    (hxs : (es.filter (·.selected)).flatMap (fun e => mirrorXs e.geo) = x :: rest) :
    mirrorSelected f es =
      es.map deselect ++
        mirrorClones f ((foldMin x rest + foldMax x rest) / 2) 0 (es.filter (·.selected)) := by
  simp [mirrorSelected, hemp, hxs]

/-- Claim C6 (amended): for every non-empty selection containing no rect and
no door entity, mirroring and then mirroring the resulting clones yields
entities whose x-coordinates equal the original selection's x-coordinates
exactly, with y-coordinates unchanged after each of the two applications.
(Rects are excluded because the extent loop reads only `start.x` while the
clone repositions `start.x` by the width, and doors because their `x` feeds
the extent but no clone branch mirrors them — both make the second axis drift,
breaking the involution.) -/
theorem mirror_twice_restores_x :
    ∀ (es : List Entity) (f1 f2 : Nat → String),
    es.filter (·.selected) ≠ [] →
    (∀ e ∈ es.filter (·.selected), isRect e.geo = false ∧ isDoor e.geo = false) →
    ((mirrorSelected f2 (mirrorSelected f1 es)).filter (·.selected)).map
        (fun e => geoXs e.geo) =
      (es.filter (·.selected)).map (fun e => geoXs e.geo) ∧
    ((mirrorSelected f1 es).filter (·.selected)).map (fun e => geoYs e.geo) =
      (es.filter (·.selected)).map (fun e => geoYs e.geo) ∧
    ((mirrorSelected f2 (mirrorSelected f1 es)).filter (·.selected)).map
        (fun e => geoYs e.geo) =
      (es.filter (·.selected)).map (fun e => geoYs e.geo) := by
  intro es f1 f2 hne hok
  have hemp : (es.filter (·.selected)).isEmpty = false := isEmpty_false_of_ne_nil hne
  rcases hxs : (es.filter (·.selected)).flatMap (fun e => mirrorXs e.geo) with _ | ⟨x, rest⟩
  · -- degenerate x-extent: both applications are no-ops
    have h1 : mirrorSelected f1 es = es := mirrorSelected_nil f1 es hxs
    rw [h1]
    rw [mirrorSelected_nil f2 es hxs]
    exact ⟨rfl, rfl, rfl⟩
  · set A := (foldMin x rest + foldMax x rest) / 2 with hA
    -- first application
    have step1 : mirrorSelected f1 es =
        es.map deselect ++ mirrorClones f1 A 0 (es.filter (·.selected)) := by
      rw [mirrorSelected_eq f1 es x rest hemp hxs]
    have S1 : (mirrorSelected f1 es).filter (·.selected) =
        mirrorClones f1 A 0 (es.filter (·.selected)) := by
      rw [step1, List.filter_append, filter_map_deselect, filter_mirrorClones,
        List.nil_append]
    have hxs1 : ((mirrorSelected f1 es).filter (·.selected)).flatMap
        (fun e => mirrorXs e.geo) =
        (A - (x - A)) :: rest.map (fun v => A - (v - A)) := by
      rw [S1, mirrorClones_flatMap f1 A (es.filter (·.selected)) 0 hok, hxs,
        List.map_cons]
    have hne1 : (mirrorSelected f1 es).filter (·.selected) ≠ [] := by
      intro h
      rw [h] at hxs1
      simp at hxs1
    have hemp1 : ((mirrorSelected f1 es).filter (·.selected)).isEmpty = false :=
      isEmpty_false_of_ne_nil hne1
    have hok1 : ∀ e ∈ (mirrorSelected f1 es).filter (·.selected),
        isRect e.geo = false ∧ isDoor e.geo = false := by
      intro e he
      rw [S1] at he
      rcases mirrorClones_mem f1 A (es.filter (·.selected)) 0 e he with ⟨a, ha, hgeo⟩
      rw [hgeo, isRect_mirrorG, isDoor_mirrorG]
      exact hok a ha
    -- the second axis equals the first
    have haxis : (foldMin (A - (x - A)) (rest.map (fun v => A - (v - A))) +
        foldMax (A - (x - A)) (rest.map (fun v => A - (v - A)))) / 2 = A :=
      mirrorAxis_map x rest A hA
    -- second application
    have step2 : mirrorSelected f2 (mirrorSelected f1 es) =
        (mirrorSelected f1 es).map deselect ++
          mirrorClones f2 A 0 ((mirrorSelected f1 es).filter (·.selected)) := by
      rw [mirrorSelected_eq f2 (mirrorSelected f1 es) (A - (x - A))
        (rest.map (fun v => A - (v - A))) hemp1 hxs1, haxis]
    have S2 : (mirrorSelected f2 (mirrorSelected f1 es)).filter (·.selected) =
        mirrorClones f2 A 0 ((mirrorSelected f1 es).filter (·.selected)) := by
      rw [step2, List.filter_append, filter_map_deselect, filter_mirrorClones,
        List.nil_append]
    -- geometries after the double mirror are the originals
    have hgeo2 : ((mirrorSelected f2 (mirrorSelected f1 es)).filter (·.selected)).map
        Entity.geo = (es.filter (·.selected)).map Entity.geo := by
      rw [S2, mirrorClones_geo, map_geo_comp (mirrorG A), S1, mirrorClones_geo,
        map_geo_comp (mirrorG A), List.map_map]
      have hcomp : ∀ g ∈ (es.filter (·.selected)).map Entity.geo,
          (mirrorG A ∘ mirrorG A) g = id g := by
        intro g _
        show mirrorG A (mirrorG A g) = g
        exact mirrorG_invol A g
      rw [List.map_congr_left hcomp, List.map_id]
    have hgeo1 : ((mirrorSelected f1 es).filter (·.selected)).map Entity.geo =
        (es.filter (·.selected)).map (fun e => mirrorG A e.geo) := by
      rw [S1, mirrorClones_geo]
    refine ⟨?_, ?_, ?_⟩
    · rw [map_geo_comp, hgeo2, ← map_geo_comp]
    · rw [map_geo_comp, hgeo1, List.map_map]
      apply List.map_congr_left
      intro a _
      show geoYs (mirrorG A a.geo) = geoYs a.geo
      exact geoYs_mirrorG A a.geo
    · rw [map_geo_comp, hgeo2, ← map_geo_comp]

/-- Claim C6 counterexample: a selection of one rect (start (0,0), width 10)
breaks the involution — the first mirror puts the clone's start.x at -10, and
the second mirror (axis recomputed from that moved start.x alone) puts it at
-20, not back at 0. -/
theorem mirror_twice_rect_drifts :
    ((mirrorSelected (fun _ => "m2") (mirrorSelected (fun _ => "m1")
        [⟨"r", true, EGeo.rect ⟨0, 0⟩ 10 5⟩])).filter (·.selected)).map
      (fun e => geoXs e.geo) = [[-20]] ∧
    (([⟨"r", true, EGeo.rect ⟨0, 0⟩ 10 5⟩] : List Entity).filter (·.selected)).map
      (fun e => geoXs e.geo) = [[0]] ∧
    ([[(-20 : ℚ)]] : List (List ℚ)) ≠ [[0]] := by
  refine ⟨?_, by norm_num [geoXs], ?_⟩
  · norm_num [mirrorSelected, mirrorClones, mirrorG, mirrorPoint, mirrorXs, geoXs,
      deselect, foldMin, foldMax]
  · intro h
    have := List.head_eq_of_cons_eq h
    have h2 := List.head_eq_of_cons_eq this
    norm_num at h2

/-- Witness for C6: a single selected wall from (0,0) to (10,0). -/
theorem mirror_twice_restores_x_witness :
    ([⟨"w1", true, EGeo.wall ⟨0, 0⟩ ⟨10, 0⟩ 5⟩] : List Entity).filter (·.selected) ≠ [] ∧
    (∀ e ∈ ([⟨"w1", true, EGeo.wall ⟨0, 0⟩ ⟨10, 0⟩ 5⟩] : List Entity).filter (·.selected),
      isRect e.geo = false ∧ isDoor e.geo = false) ∧
    (((mirrorSelected (fun _ => "m2") (mirrorSelected (fun _ => "m1")
          [⟨"w1", true, EGeo.wall ⟨0, 0⟩ ⟨10, 0⟩ 5⟩])).filter (·.selected)).map
        (fun e => geoXs e.geo) =
      (([⟨"w1", true, EGeo.wall ⟨0, 0⟩ ⟨10, 0⟩ 5⟩] : List Entity).filter
          (·.selected)).map (fun e => geoXs e.geo) ∧
    ((mirrorSelected (fun _ => "m1")
          [⟨"w1", true, EGeo.wall ⟨0, 0⟩ ⟨10, 0⟩ 5⟩]).filter (·.selected)).map
        (fun e => geoYs e.geo) =
      (([⟨"w1", true, EGeo.wall ⟨0, 0⟩ ⟨10, 0⟩ 5⟩] : List Entity).filter
          (·.selected)).map (fun e => geoYs e.geo) ∧
    ((mirrorSelected (fun _ => "m2") (mirrorSelected (fun _ => "m1")
          [⟨"w1", true, EGeo.wall ⟨0, 0⟩ ⟨10, 0⟩ 5⟩])).filter (·.selected)).map
        (fun e => geoYs e.geo) =
      (([⟨"w1", true, EGeo.wall ⟨0, 0⟩ ⟨10, 0⟩ 5⟩] : List Entity).filter
          (·.selected)).map (fun e => geoYs e.geo)) :=
  ⟨by simp, by simp [isRect, isDoor],
    mirror_twice_restores_x [⟨"w1", true, EGeo.wall ⟨0, 0⟩ ⟨10, 0⟩ 5⟩]
      (fun _ => "m1") (fun _ => "m2") (by simp) (by simp [isRect, isDoor])⟩

-- ---------------------------------------------------------------------------
-- Rotate (`rotateSelected`)
-- ---------------------------------------------------------------------------

/-- 90° rotation of `p` about `c`.  The source computes
`cx + dx*cos(π/2) - dy*sin(π/2)` and `cy + dx*sin(π/2) + dy*cos(π/2)`; in the
idealized exact semantics `cos(π/2) = 0` and `sin(π/2) = 1`, giving
`(cx - dy, cy + dx)`. -/
def rotPoint (c p : Point) : Point := ⟨c.x - (p.y - c.y), c.y + (p.x - c.x)⟩

/-- Truncation toward zero, as used by the JS `%` operator. -/
def qtrunc (q : ℚ) : ℤ := if 0 ≤ q then ⌊q⌋ else ⌈q⌉

/-- The JS remainder operator `a % n`. -/
def jsMod (a n : ℚ) : ℚ := a - n * (qtrunc (a / n) : ℚ)

/-- The per-variant rotation of `rotateSelected`: walls/dimensions/leaders
rotate both endpoints; a rect rotates its center, swaps width/height and
re-anchors `start`; the door additionally adds 90 (mod 360) to its rotation
field; arcs and inserts match no branch and are cloned unchanged. -/
def rotG (c : Point) : EGeo → EGeo
  | EGeo.wall s e t => EGeo.wall (rotPoint c s) (rotPoint c e) t
  | EGeo.dimension s e => EGeo.dimension (rotPoint c s) (rotPoint c e)
  | EGeo.leader s e txt => EGeo.leader (rotPoint c s) (rotPoint c e) txt
  | EGeo.rect s w h =>
      EGeo.rect ⟨(rotPoint c ⟨s.x + w / 2, s.y + h / 2⟩).x - h / 2,
                 (rotPoint c ⟨s.x + w / 2, s.y + h / 2⟩).y - w / 2⟩ h w
  | EGeo.circle ctr r => EGeo.circle (rotPoint c ctr) r
  | EGeo.centermark ctr sz => EGeo.centermark (rotPoint c ctr) sz
  | EGeo.text x y ct fs => EGeo.text (rotPoint c ⟨x, y⟩).x (rotPoint c ⟨x, y⟩).y ct fs
  | EGeo.image href x y w h o =>
      EGeo.image href (rotPoint c ⟨x, y⟩).x (rotPoint c ⟨x, y⟩).y w h o
  | EGeo.table x y r cl rh cw =>
      EGeo.table (rotPoint c ⟨x, y⟩).x (rotPoint c ⟨x, y⟩).y r cl rh cw
  | EGeo.door x y w r =>
      EGeo.door (rotPoint c ⟨x, y⟩).x (rotPoint c ⟨x, y⟩).y w (jsMod (r + 90) 360)
  | EGeo.polyline pts cl => EGeo.polyline (pts.map (rotPoint c)) cl
  | EGeo.arc p1 p2 p3 => EGeo.arc p1 p2 p3
  | EGeo.insert nm ip sc rot => EGeo.insert nm ip sc rot

/-- One entity of `rotateSelected`'s in-place map: only selected entities are
rebuilt (same id, same selected flag). -/
def rotStep (c : Point) (e : Entity) : Entity :=
  if e.selected then { e with geo := rotG c e.geo } else e

/-- Center of the axis-aligned bounding box of a non-empty point list. -/
def bboxCenter (p : Point) (rest : List Point) : Point :=
  ⟨(foldMin p.x (rest.map Point.x) + foldMax p.x (rest.map Point.x)) / 2,
   (foldMin p.y (rest.map Point.y) + foldMax p.y (rest.map Point.y)) / 2⟩

/-- `rotateSelected`: no-op on an empty selection or an empty representative
bounding box; otherwise rotates every selected entity 90° about the box
center, in place. -/
def rotateSelected (es : List Entity) : List Entity :=
  let selected := es.filter (·.selected)
  if selected.isEmpty then es
  else
    match selected.flatMap (fun e => repPts e.geo) with
    | [] => es
    | p :: rest => es.map (rotStep (bboxCenter p rest))

/-- All positional points of a geometry (for doors the anchor point only,
not the scalar rotation field). -/
def geoPts : EGeo → List Point
  | EGeo.wall s e _ => [s, e]
  | EGeo.dimension s e => [s, e]
  | EGeo.leader s e _ => [s, e]
  | EGeo.rect s _ _ => [s]
  | EGeo.circle c _ => [c]
  | EGeo.centermark c _ => [c]
  | EGeo.text x y _ _ => [⟨x, y⟩]
  | EGeo.image _ x y _ _ _ => [⟨x, y⟩]
  | EGeo.table x y _ _ _ _ => [⟨x, y⟩]
  | EGeo.door x y _ _ => [⟨x, y⟩]
  | EGeo.polyline pts _ => pts
  | EGeo.arc p1 p2 p3 => [p1, p2, p3]
  | EGeo.insert _ ip _ _ => [ip]

theorem rotateSelected_nil (es : List Entity)
    (hpts : (es.filter (·.selected)).flatMap (fun e => repPts e.geo) = []) :
    rotateSelected es = es := by
  by_cases hemp : (es.filter (·.selected)).isEmpty
  · simp [rotateSelected, hemp]
  · simp [rotateSelected, hemp, hpts]

theorem rotateSelected_eq (es : List Entity) (p : Point) (rest : List Point)
    (hemp : (es.filter (·.selected)).isEmpty = false)
    (hpts : (es.filter (·.selected)).flatMap (fun e => repPts e.geo) = p :: rest) :
    rotateSelected es = es.map (rotStep (bboxCenter p rest)) := by
  simp [rotateSelected, hemp, hpts]

theorem rotStep_selected (c : Point) (e : Entity) : (rotStep c e).selected = e.selected := by
  unfold rotStep
  by_cases h : e.selected
  · simp [h]
  · simp [h]

theorem filter_map_rotStep (c : Point) (es : List Entity) :
    (es.map (rotStep c)).filter (·.selected) = (es.filter (·.selected)).map (rotStep c) := by
  induction es with
  | nil => rfl
  | cons a t ih =>
    simp only [List.map_cons, List.filter_cons, rotStep_selected]
    by_cases h : a.selected
    · simp [h, ih]
    · simp [h, ih]

theorem isRect_rotG (c : Point) (g : EGeo) : isRect (rotG c g) = isRect g := by
  cases g <;> rfl

theorem repPts_rotG (c : Point) (g : EGeo) (h : isRect g = false) :
    repPts (rotG c g) = (repPts g).map (rotPoint c) := by
  cases g <;> simp_all [rotG, repPts, isRect]

theorem rotStep_sel_eq (c : Point) (e : Entity) (h : e.selected = true) :
    rotStep c e = ⟨e.id, e.selected, rotG c e.geo⟩ := by
  simp [rotStep, h]

theorem selPts_map_rotStep (c : Point) : ∀ (S : List Entity),
    (∀ e ∈ S, e.selected = true) → (∀ e ∈ S, isRect e.geo = false) →
    (S.map (rotStep c)).flatMap (fun e => repPts e.geo) =
      (S.flatMap (fun e => repPts e.geo)).map (rotPoint c) := by
  intro S
  induction S with
  | nil => intro _ _; rfl
  | cons a t ih =>
    intro hsel hok
    simp only [List.map_cons, List.flatMap_cons, List.map_append]
    rw [rotStep_sel_eq c a (hsel a (List.mem_cons_self a t))]
    rw [show (⟨a.id, a.selected, rotG c a.geo⟩ : Entity).geo = rotG c a.geo from rfl]
    rw [repPts_rotG c a.geo (hok a (List.mem_cons_self a t))]
    rw [ih (fun x hx => hsel x (List.mem_cons_of_mem a hx))
      (fun x hx => hok x (List.mem_cons_of_mem a hx))]

/-- Rotating a representative point set 90° about its own bounding-box
center leaves the bounding-box center fixed. -/
theorem bboxCenter_map_rotPoint (p : Point) (rest : List Point) (c : Point)
    (hc : c = bboxCenter p rest) :
    bboxCenter (rotPoint c p) (rest.map (rotPoint c)) = c := by
  have hxlist : (rest.map (rotPoint c)).map Point.x =
      (rest.map Point.y).map (fun v => (c.x + c.y) - v) := by
    rw [List.map_map, List.map_map]
    apply List.map_congr_left
    intro q _
    show (rotPoint c q).x = c.x + c.y - q.y
    simp only [rotPoint]
    ring
  have hylist : (rest.map (rotPoint c)).map Point.y =
      (rest.map Point.x).map (fun v => (c.y - c.x) + v) := by
    rw [List.map_map, List.map_map]
    apply List.map_congr_left
    intro q _
    show (rotPoint c q).y = (c.y - c.x) + q.x
    simp only [rotPoint]
    ring
  have hx0 : (rotPoint c p).x = (c.x + c.y) - p.y := by
    simp only [rotPoint]
    ring
  have hy0 : (rotPoint c p).y = (c.y - c.x) + p.x := by
    simp only [rotPoint]
    ring
  have hcx : c.x = (foldMin p.x (rest.map Point.x) + foldMax p.x (rest.map Point.x)) / 2 := by
    rw [hc]
    rfl
  have hcy : c.y = (foldMin p.y (rest.map Point.y) + foldMax p.y (rest.map Point.y)) / 2 := by
    rw [hc]
    rfl
  unfold bboxCenter
  rw [hxlist, hylist, hx0, hy0, foldMin_map_sub, foldMax_map_sub, foldMin_map_add,
    foldMax_map_add]
  cases c with
  | mk cx cy =>
    simp only [Point.mk.injEq]
    constructor
    · simp only at hcx hcy
      rw [hcx, hcy]
      ring
    · simp only at hcx hcy
      rw [hcx, hcy]
      ring

theorem point_eta (p : Point) : (⟨p.x, p.y⟩ : Point) = p := rfl

theorem rotPoint_four (c p : Point) :
    rotPoint c (rotPoint c (rotPoint c (rotPoint c p))) = p := by
  cases p with
  | mk px py =>
    cases c with
    | mk cx cy =>
      simp only [rotPoint, Point.mk.injEq]
      refine ⟨by ring, by ring⟩

theorem geoPts_rotG_four (c : Point) (g : EGeo) (h : isRect g = false) :
    geoPts (rotG c (rotG c (rotG c (rotG c g)))) = geoPts g := by
  cases g <;>
    simp_all [rotG, geoPts, isRect, point_eta, rotPoint_four, List.map_map, Function.comp_def]

theorem isRect_rotStep_geo (c : Point) (e : Entity) :
    isRect (rotStep c e).geo = isRect e.geo := by
  unfold rotStep
  by_cases h : e.selected
  · simp [h, isRect_rotG]
  · simp [h]

/-- One rotation step: the unfolding equation together with the invariants
needed to unfold the next application with the SAME center. -/
theorem rotate_once (es : List Entity) (p : Point) (rest : List Point) (c : Point)
    (hc : c = bboxCenter p rest)
    (hne : es.filter (·.selected) ≠ [])
    (hok : ∀ e ∈ es.filter (·.selected), isRect e.geo = false)
    (hpts : (es.filter (·.selected)).flatMap (fun e => repPts e.geo) = p :: rest) :
    rotateSelected es = es.map (rotStep c) ∧
    (es.map (rotStep c)).filter (·.selected) ≠ [] ∧
    (∀ e ∈ (es.map (rotStep c)).filter (·.selected), isRect e.geo = false) ∧
    ((es.map (rotStep c)).filter (·.selected)).flatMap (fun e => repPts e.geo) =
      rotPoint c p :: rest.map (rotPoint c) ∧
    c = bboxCenter (rotPoint c p) (rest.map (rotPoint c)) := by
  have hemp : (es.filter (·.selected)).isEmpty = false := isEmpty_false_of_ne_nil hne
  have hsel : ∀ e ∈ es.filter (·.selected), e.selected = true :=
    fun e he => (List.mem_filter.mp he).2
  have hfil : (es.map (rotStep c)).filter (·.selected) =
      (es.filter (·.selected)).map (rotStep c) := filter_map_rotStep c es
  refine ⟨?_, ?_, ?_, ?_, ?_⟩
  · rw [rotateSelected_eq es p rest hemp hpts, hc]
  · rw [hfil]
    intro h
    rcases List.map_eq_nil_iff.mp h with h'
    exact hne h'
  · intro e he
    rw [hfil] at he
    rcases List.mem_map.mp he with ⟨a, ha, rfl⟩
    rw [isRect_rotStep_geo]
    exact hok a ha
  · rw [hfil, selPts_map_rotStep c (es.filter (·.selected)) hsel hok, hpts, List.map_cons]
  · exact (bboxCenter_map_rotPoint p rest c hc).symm

/-- Claim C7 (amended): for every non-empty selection containing no rect
entity, applying the rotate-90°-about-selection-center operation four times
returns every entity's positional points exactly to their original values
(rects are excluded: the bounding box reads only a rect's `start`, which the
rect re-anchoring moves off the rotation orbit, so the center drifts between
applications). -/
theorem rotate_four_restores_points :
    ∀ es : List Entity,
    es.filter (·.selected) ≠ [] →
    (∀ e ∈ es.filter (·.selected), isRect e.geo = false) →
    (rotateSelected (rotateSelected (rotateSelected (rotateSelected es)))).map
        (fun e => geoPts e.geo) =
      es.map (fun e => geoPts e.geo) := by
  intro es hne hok
  rcases hpts : (es.filter (·.selected)).flatMap (fun e => repPts e.geo) with _ | ⟨p, rest⟩
  · rw [rotateSelected_nil es hpts, rotateSelected_nil es hpts, rotateSelected_nil es hpts,
      rotateSelected_nil es hpts]
  · obtain ⟨e1, ne1, ok1, pts1, hc1⟩ := rotate_once es p rest (bboxCenter p rest) rfl hne hok hpts
    obtain ⟨e2, ne2, ok2, pts2, hc2⟩ := rotate_once (es.map (rotStep (bboxCenter p rest)))
      (rotPoint (bboxCenter p rest) p) (rest.map (rotPoint (bboxCenter p rest)))
      (bboxCenter p rest) hc1 ne1 ok1 pts1
    obtain ⟨e3, ne3, ok3, pts3, hc3⟩ := rotate_once
      ((es.map (rotStep (bboxCenter p rest))).map (rotStep (bboxCenter p rest)))
      (rotPoint (bboxCenter p rest) (rotPoint (bboxCenter p rest) p))
      ((rest.map (rotPoint (bboxCenter p rest))).map (rotPoint (bboxCenter p rest)))
      (bboxCenter p rest) hc2 ne2 ok2 pts2
    obtain ⟨e4, -, -, -, -⟩ := rotate_once
      (((es.map (rotStep (bboxCenter p rest))).map (rotStep (bboxCenter p rest))).map
        (rotStep (bboxCenter p rest)))
      (rotPoint (bboxCenter p rest) (rotPoint (bboxCenter p rest)
        (rotPoint (bboxCenter p rest) p)))
      (((rest.map (rotPoint (bboxCenter p rest))).map
        (rotPoint (bboxCenter p rest))).map (rotPoint (bboxCenter p rest)))
      (bboxCenter p rest) hc3 ne3 ok3 pts3
    rw [e1, e2, e3, e4, List.map_map, List.map_map, List.map_map, List.map_map]
    apply List.map_congr_left
    intro a ha
    by_cases hasel : a.selected
    · have hmem : a ∈ es.filter (·.selected) := List.mem_filter.mpr ⟨ha, hasel⟩
      have hrect := hok a hmem
      show geoPts ((rotStep (bboxCenter p rest) (rotStep (bboxCenter p rest)
        (rotStep (bboxCenter p rest) (rotStep (bboxCenter p rest) a)))).geo) = geoPts a.geo
      have hgeo4 : (rotStep (bboxCenter p rest) (rotStep (bboxCenter p rest)
          (rotStep (bboxCenter p rest) (rotStep (bboxCenter p rest) a)))).geo =
          rotG (bboxCenter p rest) (rotG (bboxCenter p rest) (rotG (bboxCenter p rest)
            (rotG (bboxCenter p rest) a.geo))) := by
        simp [rotStep, hasel]
      rw [hgeo4]
      exact geoPts_rotG_four (bboxCenter p rest) a.geo hrect
    · show geoPts ((rotStep (bboxCenter p rest) (rotStep (bboxCenter p rest)
        (rotStep (bboxCenter p rest) (rotStep (bboxCenter p rest) a)))).geo) = geoPts a.geo
      simp [rotStep, hasel]

/-- Claim C7 counterexample: a selection of one rect (start (0,0), 10×10)
does NOT return to its original position after four rotations — its start
drifts to (-40,0), far beyond any floating tolerance, because the bounding
box reads only the rect's `start`, which each application moves. -/
theorem rotate_four_rect_drifts :
    (rotateSelected (rotateSelected (rotateSelected (rotateSelected
        [⟨"r", true, EGeo.rect ⟨0, 0⟩ 10 10⟩])))).map (fun e => geoPts e.geo) =
      [[⟨-40, 0⟩]] ∧
    ([⟨"r", true, EGeo.rect ⟨0, 0⟩ 10 10⟩] : List Entity).map (fun e => geoPts e.geo) =
      [[⟨0, 0⟩]] ∧
    ([[(⟨-40, 0⟩ : Point)]] : List (List Point)) ≠ [[(⟨0, 0⟩ : Point)]] := by
  refine ⟨?_, by norm_num [geoPts], ?_⟩
  · norm_num [rotateSelected, rotStep, rotG, rotPoint, bboxCenter, foldMin, foldMax,
      repPts, geoPts]
  · intro h
    have h1 := List.head_eq_of_cons_eq h
    have h2 := List.head_eq_of_cons_eq h1
    have h3 : (-40 : ℚ) = 0 := congrArg Point.x h2
    norm_num at h3

/-- Witness for C7: a single selected wall from (0,0) to (10,0). -/
theorem rotate_four_restores_points_witness :
    ([⟨"w1", true, EGeo.wall ⟨0, 0⟩ ⟨10, 0⟩ 5⟩] : List Entity).filter (·.selected) ≠ [] ∧
    (∀ e ∈ ([⟨"w1", true, EGeo.wall ⟨0, 0⟩ ⟨10, 0⟩ 5⟩] : List Entity).filter (·.selected),
      isRect e.geo = false) ∧
    (rotateSelected (rotateSelected (rotateSelected (rotateSelected
        [⟨"w1", true, EGeo.wall ⟨0, 0⟩ ⟨10, 0⟩ 5⟩])))).map (fun e => geoPts e.geo) =
      ([⟨"w1", true, EGeo.wall ⟨0, 0⟩ ⟨10, 0⟩ 5⟩] : List Entity).map (fun e => geoPts e.geo) :=
  ⟨by simp, by simp [isRect],
    rotate_four_restores_points [⟨"w1", true, EGeo.wall ⟨0, 0⟩ ⟨10, 0⟩ 5⟩]
      (by simp) (by simp [isRect])⟩

end ArchAi
